import Mathlib

/-!
# Voting and score-consistency subsystem: a shallow embedding

This file embeds the voting core of the community-platform backend:
the vote handlers `POST /api/posts/:id/vote` and `POST /api/comments/:id/vote`
(two near-identical route handlers, embedded once, parametrised by the kind of
target), the vote ledger (`Vote` collection with its compound key), the target
counter updates, the karma recalculation method `User.updateKarma`, and the
`DELETE /api/posts/:id` / `DELETE /api/comments/:id` handlers.

Modelling conventions:
* MongoDB collections are lists of documents; `findOne`/`findById` is
  `List.find?`, `deleteOne` on a fetched document is `List.eraseP` (it removes
  exactly that document), `deleteMany` is a filter, and a mongoose `save` of a
  fetched document writes back only the modified paths (`setFirst` combined
  with a modified-path merge).
* The request body value is a JSON value (`JSVal`): the handlers validate it
  with the JS coercion `Number(value)` but branch on it with strict equality
  (`===`), so both views are modelled.
* The transactional block of a vote request is `voteTxn`.  Failure injection
  is explicit: `karmaOk` says whether the karma-recalculation step succeeds,
  and `conflicts` says, per transaction attempt, whether the transactional
  write hits a write conflict / unique-constraint violation.
* Machine integers do not overflow in the modelled ranges, so counters and
  karma are `Int` and identities are `Nat`.
-/

/-- The two kinds of votable target (`targetType` in the `Vote` schema). -/
inductive TType
  | post
  | comment
  deriving DecidableEq, Repr

/-- A document of the `Vote` collection: the vote ledger record. -/
structure VoteRec where
  user : Nat
  targetType : TType
  target : Nat
  value : Int
  deriving DecidableEq, Repr

/-- A votable target document (a `Post` or a `Comment`), restricted to the
fields the voting core touches.  For a `Comment` document, `post` is the post
it belongs to; a `Post` document has no such field (`none`). -/
structure TargetDoc where
  id : Nat
  author : Nat
  post : Option Nat
  upvotes : Int
  downvotes : Int
  deriving DecidableEq, Repr

/-- A `User` document, restricted to the fields the voting core touches. -/
structure UserRec where
  id : Nat
  karma : Int
  deriving DecidableEq, Repr

/-- The database state seen by the voting core. -/
structure DB where
  posts : List TargetDoc
  comments : List TargetDoc
  votes : List VoteRec
  users : List UserRec
  deriving DecidableEq, Repr

/-- The collection a target kind lives in. -/
def DB.coll (db : DB) : TType → List TargetDoc
  | TType.post => db.posts
  | TType.comment => db.comments

/-- Replace the collection of one target kind. -/
def DB.withColl (db : DB) : TType → List TargetDoc → DB
  | TType.post, ts => { db with posts := ts }
  | TType.comment, ts => { db with comments := ts }

/-- A JSON request-body value, as far as the vote handlers inspect it. -/
inductive JSVal
  | num (n : Int)
  | str (s : String)
  deriving DecidableEq, Repr

/-- All-digit string to number; any non-digit character makes the result
`none` (JS `NaN`). -/
def digitsToNat (cs : List Char) : Option Nat :=
  cs.foldl
    (fun acc c =>
      match acc with
      | none => none
      | some n => if c.isDigit then some (n * 10 + (c.toNat - 48)) else none)
    (some 0)

/-- Leading/trailing-whitespace trim of a character list (JS `Number()`
trims whitespace before parsing). -/
def trimChars (cs : List Char) : List Char :=
  ((cs.dropWhile Char.isWhitespace).reverse.dropWhile Char.isWhitespace).reverse

/-- JS `Number()` coercion on a string, on the integer-literal fragment the
API compares against (`Number("") = 0`, `Number("-1") = -1`, non-numeric
strings give `NaN`, modelled as `none`). -/
def jsStrToNumber (s : String) : Option Int :=
  match trimChars s.toList with
  | [] => some 0
  | c :: rest =>
    if c = '-' then
      if rest.isEmpty then none
      else (digitsToNat rest).map (fun n => -(n : Int))
    else (digitsToNat (c :: rest)).map (fun n => (n : Int))

/-- JS `Number(value)` on a request-body value (`none` models `NaN`). -/
def jsNumber : JSVal → Option Int
  | JSVal.num n => some n
  | JSVal.str s => jsStrToNumber s

/-- JS strict equality (`===`) between a request-body value and a number. -/
def jsEqInt : JSVal → Int → Bool
  | JSVal.num m, k => m == k
  | JSVal.str _, _ => false

/-- The compound key of the vote ledger: one record per
`(user, targetType, target)`. -/
def voteKey (uid : Nat) (tt : TType) (targetId : Nat) (r : VoteRec) : Bool :=
  r.user == uid && decide (r.targetType = tt) && r.target == targetId

/-- Apply `f` to the first element satisfying `p` (a mongoose `save` of the
document returned by `findOne`). -/
def setFirst {α : Type} (p : α → Bool) (f : α → α) : List α → List α
  | [] => []
  | x :: xs => if p x then f x :: xs else x :: setFirst p f xs

/-- Mongoose `save` of a fetched target document: an update of the modified
paths only.  `fetched` is the document as read, `updated` the in-memory
document being saved; only the vote counters are ever modified by the
handlers, so only paths whose value changed are written back. -/
def saveDoc (coll : List TargetDoc) (fetched updated : TargetDoc) : List TargetDoc :=
  setFirst (fun t => t.id == fetched.id)
    (fun cur =>
      { cur with
        upvotes := if updated.upvotes == fetched.upvotes then cur.upvotes else updated.upvotes,
        downvotes := if updated.downvotes == fetched.downvotes then cur.downvotes else updated.downvotes })
    coll

/-- The ledger/counter effect computed inside the vote transaction. -/
structure TxnEffect where
  votes : List VoteRec
  upvotes : Int
  downvotes : Int
  deriving DecidableEq, Repr

/-- The branch structure of the vote handlers between the in-transaction
`Vote.findOne` and the target `save`: remove / update / create the ledger
record and adjust the counters, exactly as the route code does.  `value` is
the raw body value (compared with `===`), `castVal` the number mongoose casts
it to when saving a `Vote` document. -/
def applyVote (votes : List VoteRec) (uid : Nat) (tt : TType) (targetId : Nat)
    (upvotes downvotes : Int) (value : JSVal) (castVal : Int) : TxnEffect :=
  let vote? := votes.find? (voteKey uid tt targetId)
  let previousValue : Int := match vote? with | some v => v.value | none => 0
  if jsEqInt value 0 then
    match vote? with
    | some _ =>
      { votes := votes.eraseP (voteKey uid tt targetId),
        upvotes := if previousValue == 1 then max 0 (upvotes - 1) else upvotes,
        downvotes := if previousValue == -1 then max 0 (downvotes - 1) else downvotes }
    | none => { votes := votes, upvotes := upvotes, downvotes := downvotes }
  else
    match vote? with
    | some _ =>
      { votes := setFirst (voteKey uid tt targetId) (fun r => { r with value := castVal }) votes,
        upvotes :=
          if previousValue == 1 && jsEqInt value (-1) then max 0 (upvotes - 1)
          else if previousValue == -1 && jsEqInt value 1 then upvotes + 1
          else upvotes,
        downvotes :=
          if previousValue == 1 && jsEqInt value (-1) then downvotes + 1
          else if previousValue == -1 && jsEqInt value 1 then max 0 (downvotes - 1)
          else downvotes }
    | none =>
      { votes := votes ++ [⟨uid, tt, targetId, castVal⟩],
        upvotes := if jsEqInt value 1 then upvotes + 1 else upvotes,
        downvotes := if jsEqInt value (-1) then downvotes + 1 else downvotes }

/-- The aggregation pipeline of `User.updateKarma` over one collection:
`$match` on author, `$project` `upvotes - downvotes`, `$group` summing - an
empty match yields an empty result list, not `[0]`. -/
def karmaAgg (coll : List TargetDoc) (uid : Nat) : List Int :=
  let projected := (coll.filter (fun t => t.author == uid)).map (fun t => t.upvotes - t.downvotes)
  match projected with
  | [] => []
  | xs => [xs.foldl (fun a b => a + b) 0]

/-- `User.updateKarma`: aggregate post karma and comment karma, guard the
empty-aggregation case, write the sum to `User.karma`, return it. -/
def updateKarma (db : DB) (uid : Nat) : Int × DB :=
  let postKarma := karmaAgg db.posts uid
  let commentKarma := karmaAgg db.comments uid
  let karma :=
    (if postKarma.length > 0 then postKarma.headD 0 else 0) +
    (if commentKarma.length > 0 then commentKarma.headD 0 else 0)
  (karma,
    { db with
      users := setFirst (fun u => u.id == uid) (fun u => { u with karma := karma }) db.users })

/-- HTTP responses the vote and delete handlers can produce. -/
inductive Resp
  | ok
  | badRequest
  | notFound
  | forbidden
  | serverError
  deriving DecidableEq, Repr

/-- Result of a vote request: response, resulting database state, and the
number of transaction attempts the handler performed. -/
structure VoteResult where
  resp : Resp
  db : DB
  attempts : Nat
  deriving DecidableEq, Repr

/-- The transactional block of the vote handlers (the inner `try` between
`startTransaction` and `commitTransaction`): read the current vote in the
session, apply the ledger/counter transition, save the target, fetch the
author and recalculate their karma, commit.  The karma recalculation runs
inside the `try` before the commit; its aggregation queries and its
`user.save()` do not join the session, so they read the pre-transaction
(committed) state and write immediately.  `none` models the inner `try`
throwing (karma recalculation failure): the catch block aborts the
transaction, rolling back the session writes. -/
def voteTxn (db : DB) (tt : TType) (uid : Nat) (tgt : TargetDoc) (value : JSVal)
    (castVal : Int) (karmaOk : Bool) : Option DB :=
  let eff := applyVote db.votes uid tt tgt.id tgt.upvotes tgt.downvotes value castVal
  let updated := { tgt with upvotes := eff.upvotes, downvotes := eff.downvotes }
  let db1 := { db.withColl tt (saveDoc (db.coll tt) tgt updated) with votes := eff.votes }
  match db.users.find? (fun u => u.id == tgt.author) with
  | some _ =>
    if karmaOk then some { db1 with users := (updateKarma db tgt.author).2.users }
    else none
  | none => some db1

/-- The vote route handler (`POST /api/posts/:id/vote` and
`POST /api/comments/:id/vote`, which are identical up to the target
collection): validate `Number(value)` against `[1, 0, -1]`, fetch the target
(outside any transaction), then run one transaction attempt.  A write
conflict in the attempt (`conflicts` head) or a karma failure aborts the
transaction, is rethrown, and reaches the outer catch as a 500; the code
contains no retry loop. -/
def vote (db : DB) (tt : TType) (uid targetId : Nat) (value : JSVal)
    (karmaOk : Bool) (conflicts : List Bool) : VoteResult :=
  match jsNumber value with
  | none => ⟨Resp.badRequest, db, 0⟩
  | some n =>
    if n == 1 || n == 0 || n == -1 then
      match (db.coll tt).find? (fun t => t.id == targetId) with
      | none => ⟨Resp.notFound, db, 0⟩
      | some tgt =>
        if conflicts.headD false then ⟨Resp.serverError, db, 1⟩
        else
          match voteTxn db tt uid tgt value n karmaOk with
          | some db2 => ⟨Resp.ok, db2, 1⟩
          | none => ⟨Resp.serverError, db, 1⟩
    else ⟨Resp.badRequest, db, 0⟩

/-- `DELETE /api/posts/:id`: author-only; deletes the post, all comments of
the post, and all `Vote` records whose target is the post itself.  Votes on
the post's comments are not touched. -/
def deletePost (db : DB) (requester postId : Nat) : Resp × DB :=
  match db.posts.find? (fun t => t.id == postId) with
  | none => (Resp.notFound, db)
  | some post =>
    if post.author != requester then (Resp.forbidden, db)
    else
      (Resp.ok,
        { db with
          posts := db.posts.eraseP (fun t => t.id == postId),
          comments := db.comments.filter (fun c => !(c.post == some postId)),
          votes := db.votes.filter (fun v => !(decide (v.targetType = TType.post) && v.target == postId)) })

/-- `DELETE /api/comments/:id`: author-only; deletes the comment and all
`Vote` records whose target is the comment. -/
def deleteComment (db : DB) (requester commentId : Nat) : Resp × DB :=
  match db.comments.find? (fun c => c.id == commentId) with
  | none => (Resp.notFound, db)
  | some comment =>
    if comment.author != requester then (Resp.forbidden, db)
    else
      (Resp.ok,
        { db with
          comments := db.comments.eraseP (fun c => c.id == commentId),
          votes := db.votes.filter (fun v => !(decide (v.targetType = TType.comment) && v.target == commentId)) })

/-- Per-request state in the concurrency model: the requesting user and the
target document the handler fetched before starting its transaction. -/
structure ReqCtx where
  uid : Nat
  cached : Option TargetDoc
  deriving DecidableEq, Repr

/-- A scheduler step for concurrent vote requests: request `i` performs its
pre-transaction `findById` of the target, or runs its whole transaction. -/
inductive SchedStep
  | fetch (i : Nat)
  | txn (i : Nat)
  deriving DecidableEq, Repr

/-- Execute one scheduler step of N concurrent first-time `+1` vote requests
on post `postId`.  `fetch i` is request `i`'s `Post.findById` (outside the
transaction, exactly as in the handler); `txn i` runs request `i`'s
transaction block on the document it cached.  Transactions here never
overlap in time, so no write conflict arises. -/
def schedStep (postId : Nat) (st : DB × List ReqCtx) (s : SchedStep) : DB × List ReqCtx :=
  match s with
  | SchedStep.fetch i =>
    match st.2.get? i with
    | some r => (st.1, st.2.set i { r with cached := st.1.posts.find? (fun t => t.id == postId) })
    | none => st
  | SchedStep.txn i =>
    match st.2.get? i with
    | some r =>
      match r.cached with
      | some c =>
        match voteTxn st.1 TType.post r.uid c (JSVal.num 1) 1 true with
        | some db2 => (db2, st.2)
        | none => st
      | none => st
    | none => st

/-- Run a schedule of interleaved concurrent vote requests. -/
def runSchedule (postId : Nat) (db : DB) (reqs : List ReqCtx)
    (sched : List SchedStep) : DB :=
  (sched.foldl (schedStep postId) (db, reqs)).1

/-- The current ledger value of a `(voter, target kind, target)` key
(`getVote`; `none` = no record). -/
def lookupVote (db : DB) (uid : Nat) (tt : TType) (targetId : Nat) : Option Int :=
  (db.votes.find? (voteKey uid tt targetId)).map (fun r => r.value)

/-- The compound-key projection of a ledger record. -/
def recKey (r : VoteRec) : Nat × TType × Nat :=
  (r.user, r.targetType, r.target)

/-- The ledger uniqueness invariant: at most one record per compound key
(what the unique index on `(user, targetType, target)` enforces). -/
def KeyUnique (votes : List VoteRec) : Prop :=
  List.Pairwise (fun a b => recKey a ≠ recKey b) votes

/-- The spec's transition table on `(previousValue, requestedValue)`:
the pair of counter deltas `(upvotes Δ, downvotes Δ)`. -/
def specDeltas (prev req : Int) : Int × Int :=
  if prev = req then (0, 0)
  else if prev = 0 then (if req = 1 then (1, 0) else (0, 1))
  else if req = 0 then (if prev = 1 then (-1, 0) else (0, -1))
  else if prev = 1 then (-1, 1)
  else (1, -1)

/-- Apply a counter delta with the spec's floor rule: a decremented counter
is clamped at a minimum of zero. -/
def applyDelta (c delta : Int) : Int :=
  if delta < 0 then max 0 (c + delta) else c + delta

/-- The karma value the spec prescribes: the sum over every post and every
comment authored by the user of `upvotes - downvotes`. -/
def totalKarma (db : DB) (uid : Nat) : Int :=
  ((db.posts.filter (fun t => t.author == uid)).map (fun t => t.upvotes - t.downvotes)).sum +
  ((db.comments.filter (fun t => t.author == uid)).map (fun t => t.upvotes - t.downvotes)).sum

/-- The ledger contract `getVote`: the current value of a key, `0` = absent. -/
def getVote (votes : List VoteRec) (uid : Nat) (tt : TType) (targetId : Nat) : Int :=
  ((votes.find? (voteKey uid tt targetId)).map VoteRec.value).getD 0

/-- Concrete database for the C1 witness: one post with one existing upvote
by user 7, about to be flipped to a downvote. -/
def c1DB : DB :=
  { posts := [⟨1, 9, none, 1, 0⟩], comments := [],
    votes := [⟨7, TType.post, 1, 1⟩], users := [⟨9, 0⟩] }

/-- Concrete database for the C2 schedule: one post with no votes, author 9. -/
def c2DB : DB :=
  { posts := [⟨1, 9, none, 0, 0⟩], comments := [], votes := [], users := [⟨9, 0⟩] }

/-- Concrete database for the C3 witness. -/
def c3DB : DB :=
  { posts := [⟨1, 9, none, 3, 1⟩, ⟨2, 4, none, 5, 0⟩],
    comments := [⟨5, 9, some 1, 2, 2⟩], votes := [], users := [⟨9, 0⟩, ⟨4, 0⟩] }

/-- Concrete database for the C4 witness. -/
def c4DB : DB :=
  { posts := [⟨1, 9, none, 0, 0⟩], comments := [],
    votes := [⟨7, TType.post, 1, 1⟩], users := [⟨9, 0⟩] }

/-- Concrete database for the C5 counterexample: post 1 authored by user 9
(present in `users`, so the karma step runs), voter 7 has no prior vote. -/
def c5DB : DB :=
  { posts := [⟨1, 9, none, 0, 0⟩], comments := [], votes := [], users := [⟨9, 0⟩] }

/-- Concrete database for the C6 witness. -/
def c6DB : DB :=
  { posts := [⟨1, 9, none, 2, 3⟩], comments := [],
    votes := [⟨7, TType.post, 1, 1⟩], users := [⟨9, 0⟩] }

/-- Concrete database for the C7 counterexample. -/
def c7DB : DB :=
  { posts := [⟨1, 9, none, 0, 0⟩], comments := [], votes := [], users := [⟨9, 0⟩] }

/-- Concrete database for the C8 witness. -/
def c8DB : DB :=
  { posts := [⟨1, 9, none, 1, 0⟩], comments := [],
    votes := [⟨7, TType.post, 1, 1⟩], users := [⟨9, 0⟩] }

/-- Concrete database for the C9 counterexample and witness. -/
def c9DB : DB :=
  { posts := [⟨1, 9, none, 0, 0⟩], comments := [], votes := [], users := [⟨9, 0⟩] }

/-- Concrete database for the C10 witness: post 1 (author 9) with comment 5
on it; user 7 voted on both the post and the comment. -/
def c10DB : DB :=
  { posts := [⟨1, 9, none, 1, 0⟩], comments := [⟨5, 8, some 1, 1, 0⟩],
    votes := [⟨7, TType.post, 1, 1⟩, ⟨7, TType.comment, 5, 1⟩], users := [⟨9, 0⟩, ⟨8, 0⟩] }

/-! ## List and key lemmas -/

theorem voteKey_eq_true_iff (uid : Nat) (tt : TType) (t : Nat) (r : VoteRec) :
    voteKey uid tt t r = true ↔ recKey r = (uid, tt, t) := by
  simp only [voteKey, recKey, Bool.and_eq_true, beq_iff_eq, decide_eq_true_eq, Prod.ext_iff]
  tauto

theorem voteKey_set_value (uid : Nat) (tt : TType) (t : Nat) (r : VoteRec) (c : Int) :
    voteKey uid tt t { r with value := c } = voteKey uid tt t r := rfl

theorem recKey_set_value (r : VoteRec) (c : Int) :
    recKey { r with value := c } = recKey r := rfl

theorem setFirst_find?_pos {α : Type} (p : α → Bool) (f : α → α) (l : List α) (a : α)
    (hf : l.find? p = some a) (hfa : p (f a) = true) :
    (setFirst p f l).find? p = some (f a) := by
  induction l with
  | nil => cases hf
  | cons x xs ih =>
    by_cases hx : p x
    · rw [List.find?_cons_of_pos _ hx] at hf
      cases hf
      simp only [setFirst, if_pos hx]
      exact List.find?_cons_of_pos _ hfa
    · rw [List.find?_cons_of_neg _ hx] at hf
      simp only [setFirst, if_neg hx]
      rw [List.find?_cons_of_neg _ hx]
      exact ih hf

theorem setFirst_find?_other {α : Type} (p q : α → Bool) (f : α → α) (l : List α)
    (hpq : ∀ a, p a = true → q a = false) (hqf : ∀ a, q (f a) = q a) :
    (setFirst p f l).find? q = l.find? q := by
  induction l with
  | nil => rfl
  | cons x xs ih =>
    by_cases hx : p x
    · have hqx : ¬ q x = true := by simp [hpq x hx]
      simp only [setFirst, if_pos hx]
      rw [List.find?_cons_of_neg _ (by simp [hqf x, hpq x hx]), List.find?_cons_of_neg _ hqx]
    · simp only [setFirst, if_neg hx]
      by_cases hq : q x
      · rw [List.find?_cons_of_pos _ hq, List.find?_cons_of_pos _ hq]
      · rw [List.find?_cons_of_neg _ hq, List.find?_cons_of_neg _ hq]
        exact ih

theorem setFirst_fix {α : Type} (p : α → Bool) (f : α → α) (l : List α) (a : α)
    (hf : l.find? p = some a) (hfa : f a = a) :
    setFirst p f l = l := by
  induction l with
  | nil => cases hf
  | cons x xs ih =>
    by_cases hx : p x
    · rw [List.find?_cons_of_pos _ hx] at hf
      cases hf
      simp only [setFirst, if_pos hx, hfa]
    · rw [List.find?_cons_of_neg _ hx] at hf
      simp only [setFirst, if_neg hx, ih hf]

theorem mem_setFirst {α : Type} {p : α → Bool} {f : α → α} {l : List α} {y : α}
    (hy : y ∈ setFirst p f l) : y ∈ l ∨ ∃ x, x ∈ l ∧ p x = true ∧ y = f x := by
  induction l with
  | nil => cases hy
  | cons x xs ih =>
    simp only [setFirst] at hy
    by_cases hx : p x
    · rw [if_pos hx] at hy
      rcases List.mem_cons.mp hy with h | h
      · exact Or.inr ⟨x, List.mem_cons_self x xs, hx, h⟩
      · exact Or.inl (List.mem_cons_of_mem _ h)
    · rw [if_neg hx] at hy
      rcases List.mem_cons.mp hy with h | h
      · exact Or.inl (h ▸ List.mem_cons_self x xs)
      · rcases ih h with h2 | ⟨x0, hx0, hpx0, hyx0⟩
        · exact Or.inl (List.mem_cons_of_mem _ h2)
        · exact Or.inr ⟨x0, List.mem_cons_of_mem _ hx0, hpx0, hyx0⟩

theorem pairwise_setFirst {α : Type} {R : α → α → Prop} {p : α → Bool} {f : α → α}
    {l : List α} (hL : ∀ a b, R a b → R (f a) b) (hR : ∀ a b, R a b → R a (f b))
    (h : l.Pairwise R) : (setFirst p f l).Pairwise R := by
  induction l with
  | nil => exact h
  | cons x xs ih =>
    rcases List.pairwise_cons.mp h with ⟨h1, h2⟩
    by_cases hx : p x
    · simp only [setFirst, if_pos hx]
      exact List.pairwise_cons.mpr ⟨fun b hb => hL x b (h1 b hb), h2⟩
    · simp only [setFirst, if_neg hx]
      refine List.pairwise_cons.mpr ⟨?_, ih h2⟩
      intro b hb
      rcases mem_setFirst hb with h3 | ⟨x0, hx0, _, hbx0⟩
      · exact h1 b h3
      · exact hbx0 ▸ hR x x0 (h1 x0 hx0)

theorem find?_eraseP_self {α : Type} {p : α → Bool} {l : List α}
    (h : l.Pairwise fun a b => ¬(p a = true ∧ p b = true)) :
    (l.eraseP p).find? p = none := by
  induction l with
  | nil => rfl
  | cons x xs ih =>
    rcases List.pairwise_cons.mp h with ⟨h1, h2⟩
    by_cases hx : p x
    · rw [List.eraseP_cons_of_pos hx]
      exact List.find?_eq_none.mpr fun y hy hpy => (h1 y hy) ⟨hx, hpy⟩
    · rw [List.eraseP_cons_of_neg hx, List.find?_cons_of_neg _ hx]
      exact ih h2

theorem find?_eraseP_other {α : Type} {p q : α → Bool} {l : List α}
    (hpq : ∀ a, p a = true → q a = false) :
    (l.eraseP p).find? q = l.find? q := by
  induction l with
  | nil => rfl
  | cons x xs ih =>
    by_cases hx : p x
    · rw [List.eraseP_cons_of_pos hx, List.find?_cons_of_neg _ (by simp [hpq x hx])]
    · rw [List.eraseP_cons_of_neg hx]
      by_cases hq : q x
      · rw [List.find?_cons_of_pos _ hq, List.find?_cons_of_pos _ hq]
      · rw [List.find?_cons_of_neg _ hq, List.find?_cons_of_neg _ hq]
        exact ih

theorem foldl_add_eq_sum (l : List Int) (a : Int) :
    l.foldl (fun x y => x + y) a = a + l.sum := by
  induction l generalizing a with
  | nil => simp
  | cons x xs ih => simp [List.foldl_cons, ih, List.sum_cons]; ring

theorem DB.coll_withColl_self (db : DB) (tt : TType) (l : List TargetDoc) :
    (db.withColl tt l).coll tt = l := by cases tt <;> rfl

theorem DB.votes_withColl (db : DB) (tt : TType) (l : List TargetDoc) :
    (db.withColl tt l).votes = db.votes := by cases tt <;> rfl

theorem DB.users_withColl (db : DB) (tt : TType) (l : List TargetDoc) :
    (db.withColl tt l).users = db.users := by cases tt <;> rfl

theorem voteKey_self (uid : Nat) (tt : TType) (tid : Nat) (c : Int) :
    voteKey uid tt tid ⟨uid, tt, tid, c⟩ = true := by
  simp [voteKey]

theorem keyUnique_pairwise (votes : List VoteRec) (hu : KeyUnique votes)
    (uid : Nat) (tt : TType) (tid : Nat) :
    votes.Pairwise fun a b =>
      ¬(voteKey uid tt tid a = true ∧ voteKey uid tt tid b = true) :=
  hu.imp fun hab ⟨ha, hb⟩ =>
    hab (((voteKey_eq_true_iff _ _ _ _).mp ha).trans
      ((voteKey_eq_true_iff _ _ _ _).mp hb).symm)

theorem voteKey_disjoint (uid : Nat) (tt : TType) (tid : Nat)
    (uid2 : Nat) (tt2 : TType) (t2 : Nat)
    (hne : ¬(uid2 = uid ∧ tt2 = tt ∧ t2 = tid)) :
    ∀ a, voteKey uid tt tid a = true → voteKey uid2 tt2 t2 a = false := by
  intro a ha
  cases hq : voteKey uid2 tt2 t2 a with
  | false => rfl
  | true =>
    exfalso
    have e1 := (voteKey_eq_true_iff _ _ _ _).mp ha
    have e2 := (voteKey_eq_true_iff _ _ _ _).mp hq
    rw [e1] at e2
    simp only [Prod.ext_iff] at e2
    exact hne ⟨e2.1.symm, e2.2.1.symm, e2.2.2.symm⟩

/-- The ledger transition leaves every other compound key untouched. -/
theorem applyVote_frame (votes : List VoteRec) (uid : Nat) (tt : TType) (tid : Nat)
    (up down : Int) (value : JSVal) (castVal : Int)
    (uid2 : Nat) (tt2 : TType) (t2 : Nat)
    (hne : ¬(uid2 = uid ∧ tt2 = tt ∧ t2 = tid)) :
    (applyVote votes uid tt tid up down value castVal).votes.find? (voteKey uid2 tt2 t2)
      = votes.find? (voteKey uid2 tt2 t2) := by
  have hpq := voteKey_disjoint uid tt tid uid2 tt2 t2 hne
  simp only [applyVote]
  cases hf : votes.find? (voteKey uid tt tid) with
  | none =>
    by_cases h0 : jsEqInt value 0 = true
    · rw [if_pos h0]
    · rw [if_neg h0]
      rw [List.find?_append]
      have hsingle : List.find? (voteKey uid2 tt2 t2) [⟨uid, tt, tid, castVal⟩] = none := by
        have := hpq ⟨uid, tt, tid, castVal⟩ (voteKey_self uid tt tid castVal)
        simp [List.find?, this]
      rw [hsingle, Option.or_none]
  | some v =>
    by_cases h0 : jsEqInt value 0 = true
    · rw [if_pos h0]
      exact find?_eraseP_other hpq
    · rw [if_neg h0]
      exact setFirst_find?_other _ _ _ _ hpq (fun a => by rw [voteKey_set_value])

/-- After the transition, the key's ledger value is the requested value
(`none` when the request retracts to 0). -/
theorem applyVote_num_lookup (votes : List VoteRec) (uid : Nat) (tt : TType) (tid : Nat)
    (up down : Int) (n : Int)
    (hn : n = 1 ∨ n = 0 ∨ n = -1) (hu : KeyUnique votes) :
    ((applyVote votes uid tt tid up down (JSVal.num n) n).votes.find?
        (voteKey uid tt tid)).map VoteRec.value
      = (if n = 0 then none else some n) := by
  simp only [applyVote, jsEqInt]
  cases hf : votes.find? (voteKey uid tt tid) with
  | none =>
    rcases hn with h | h | h <;> subst h <;>
      simp [List.find?_append, hf, voteKey_self]
  | some v =>
    rcases hn with h | h | h <;> subst h
    · simp only [show (((1 : Int) == 0) : Bool) = false by rfl, Bool.false_eq_true, if_false]
      have := setFirst_find?_pos (voteKey uid tt tid) (fun r => { r with value := 1 })
        votes v hf (by rw [voteKey_set_value]; exact List.find?_some hf)
      simp [this]
    · simp only [show (((0 : Int) == 0) : Bool) = true by rfl, if_true]
      rw [find?_eraseP_self (keyUnique_pairwise votes hu uid tt tid)]
      simp
    · simp only [show (((-1 : Int) == 0) : Bool) = false by rfl, Bool.false_eq_true, if_false]
      have := setFirst_find?_pos (voteKey uid tt tid) (fun r => { r with value := -1 })
        votes v hf (by rw [voteKey_set_value]; exact List.find?_some hf)
      simp [this]

/-- The handler's upvote arithmetic agrees with the spec's transition table
plus the floor rule. -/
theorem applyVote_num_up (votes : List VoteRec) (uid : Nat) (tt : TType) (tid : Nat)
    (up down : Int) (n : Int)
    (hn : n = 1 ∨ n = 0 ∨ n = -1)
    (hv : ∀ v ∈ votes, v.value = 1 ∨ v.value = -1) :
    (applyVote votes uid tt tid up down (JSVal.num n) n).upvotes
      = applyDelta up (specDeltas (getVote votes uid tt tid) n).1 := by
  simp only [applyVote, jsEqInt, getVote]
  cases hf : votes.find? (voteKey uid tt tid) with
  | none =>
    rcases hn with h | h | h <;> subst h <;>
      norm_num [specDeltas, applyDelta]
  | some v =>
    have hvv := hv v (List.mem_of_find?_eq_some hf)
    rcases hn with h | h | h <;> subst h <;> rcases hvv with h1 | h1 <;>
      norm_num [specDeltas, applyDelta, h1] <;> omega

/-- The handler's downvote arithmetic agrees with the spec's transition table
plus the floor rule. -/
theorem applyVote_num_down (votes : List VoteRec) (uid : Nat) (tt : TType) (tid : Nat)
    (up down : Int) (n : Int)
    (hn : n = 1 ∨ n = 0 ∨ n = -1)
    (hv : ∀ v ∈ votes, v.value = 1 ∨ v.value = -1) :
    (applyVote votes uid tt tid up down (JSVal.num n) n).downvotes
      = applyDelta down (specDeltas (getVote votes uid tt tid) n).2 := by
  simp only [applyVote, jsEqInt, getVote]
  cases hf : votes.find? (voteKey uid tt tid) with
  | none =>
    rcases hn with h | h | h <;> subst h <;>
      norm_num [specDeltas, applyDelta]
  | some v =>
    have hvv := hv v (List.mem_of_find?_eq_some hf)
    rcases hn with h | h | h <;> subst h <;> rcases hvv with h1 | h1 <;>
      norm_num [specDeltas, applyDelta, h1] <;> omega

/-- Repeat vote: requesting the value already recorded leaves the ledger list
unchanged (stored values are nonzero, so the no-op lands in the update branch
writing the identical value). -/
theorem applyVote_num_noop (votes : List VoteRec) (uid : Nat) (tt : TType) (tid : Nat)
    (up down : Int) (n : Int)
    (hv : ∀ v ∈ votes, v.value = 1 ∨ v.value = -1)
    (hg : getVote votes uid tt tid = n) :
    (applyVote votes uid tt tid up down (JSVal.num n) n).votes = votes := by
  cases hf : votes.find? (voteKey uid tt tid) with
  | none =>
    have hn0 : n = 0 := by simpa [getVote, hf] using hg.symm
    subst hn0
    simp [applyVote, jsEqInt, hf]
  | some v =>
    have hveq : v.value = n := by simpa [getVote, hf] using hg
    have hn0 : ¬ n = 0 := by
      rcases hv v (List.mem_of_find?_eq_some hf) with h1 | h1 <;> omega
    simp only [applyVote, jsEqInt, hf]
    rw [if_neg (by simp [hn0])]
    exact setFirst_fix _ _ _ v hf (by rw [← hveq])

/-- The ledger transition preserves the compound-key uniqueness invariant,
for every request value (numbers and strings alike). -/
theorem applyVote_keyUnique (votes : List VoteRec) (uid : Nat) (tt : TType) (tid : Nat)
    (up down : Int) (value : JSVal) (castVal : Int)
    (hu : KeyUnique votes) :
    KeyUnique (applyVote votes uid tt tid up down value castVal).votes := by
  simp only [applyVote]
  cases hf : votes.find? (voteKey uid tt tid) with
  | none =>
    by_cases h0 : jsEqInt value 0 = true
    · rw [if_pos h0]
      exact hu
    · rw [if_neg h0]
      refine List.pairwise_append.mpr ⟨hu, List.pairwise_cons.mpr ⟨by simp, List.Pairwise.nil⟩, ?_⟩
      intro a ha b hb
      rcases List.mem_singleton.mp hb with rfl
      intro hcon
      have hkey : voteKey uid tt tid a = true :=
        (voteKey_eq_true_iff _ _ _ _).mpr (by rw [hcon]; rfl)
      exact (List.find?_eq_none.mp hf a ha) hkey
  | some v =>
    by_cases h0 : jsEqInt value 0 = true
    · rw [if_pos h0]
      exact List.Pairwise.sublist (List.eraseP_sublist votes) hu
    · rw [if_neg h0]
      exact pairwise_setFirst
        (fun a b hab => by rwa [recKey_set_value])
        (fun a b hab => by rwa [recKey_set_value])
        hu

/-- A numeric vote request only ever stores records with value `+1` or `-1`
(the value `0` request takes the delete branch). -/
theorem applyVote_num_values (votes : List VoteRec) (uid : Nat) (tt : TType) (tid : Nat)
    (up down : Int) (n : Int)
    (hn : n = 1 ∨ n = 0 ∨ n = -1)
    (hv : ∀ v ∈ votes, v.value = 1 ∨ v.value = -1) :
    ∀ v ∈ (applyVote votes uid tt tid up down (JSVal.num n) n).votes,
      v.value = 1 ∨ v.value = -1 := by
  simp only [applyVote, jsEqInt]
  cases hf : votes.find? (voteKey uid tt tid) with
  | none =>
    rcases hn with h | h | h <;> subst h
    · intro v hvm
      rcases (by simpa using hvm : v ∈ votes ∨ v = (⟨uid, tt, tid, 1⟩ : VoteRec)) with h2 | rfl
      · exact hv v h2
      · exact Or.inl rfl
    · simpa using hv
    · intro v hvm
      rcases (by simpa using hvm : v ∈ votes ∨ v = (⟨uid, tt, tid, -1⟩ : VoteRec)) with h2 | rfl
      · exact hv v h2
      · exact Or.inr rfl
  | some w =>
    rcases hn with h | h | h <;> subst h
    · intro v hvm
      rcases mem_setFirst (by simpa using hvm) with h2 | ⟨x, _, _, rfl⟩
      · exact hv v h2
      · exact Or.inl rfl
    · intro v hvm
      exact hv v ((List.eraseP_sublist votes).subset (by simpa using hvm))
    · intro v hvm
      rcases mem_setFirst (by simpa using hvm) with h2 | ⟨x, _, _, rfl⟩
      · exact hv v h2
      · exact Or.inr rfl

/-- With a succeeding karma step the transaction always commits. -/
theorem voteTxn_true_isSome (db : DB) (tt : TType) (uid : Nat) (tgt : TargetDoc)
    (value : JSVal) (castVal : Int) :
    voteTxn db tt uid tgt value castVal true ≠ none := by
  simp only [voteTxn]
  cases db.users.find? (fun u => u.id == tgt.author) <;> simp

/-- A committed vote transaction's ledger is the transition's ledger. -/
theorem voteTxn_some_votes (db : DB) (tt : TType) (uid : Nat) (tgt : TargetDoc)
    (value : JSVal) (castVal : Int) (karmaOk : Bool) (db2 : DB)
    (h : voteTxn db tt uid tgt value castVal karmaOk = some db2) :
    db2.votes = (applyVote db.votes uid tt tgt.id tgt.upvotes tgt.downvotes value castVal).votes := by
  simp only [voteTxn] at h
  cases hu : db.users.find? (fun u => u.id == tgt.author) with
  | none =>
    rw [hu] at h
    cases h
    rfl
  | some u =>
    rw [hu] at h
    cases karmaOk with
    | false => cases h
    | true =>
      cases h
      rfl

/-- A committed vote transaction's target collection is the saved one. -/
theorem voteTxn_some_coll (db : DB) (tt : TType) (uid : Nat) (tgt : TargetDoc)
    (value : JSVal) (castVal : Int) (karmaOk : Bool) (db2 : DB)
    (h : voteTxn db tt uid tgt value castVal karmaOk = some db2) :
    db2.coll tt = saveDoc (db.coll tt) tgt
      { tgt with
        upvotes := (applyVote db.votes uid tt tgt.id tgt.upvotes tgt.downvotes value castVal).upvotes,
        downvotes := (applyVote db.votes uid tt tgt.id tgt.upvotes tgt.downvotes value castVal).downvotes } := by
  simp only [voteTxn] at h
  cases hu : db.users.find? (fun u => u.id == tgt.author) with
  | none =>
    rw [hu] at h
    cases h
    cases tt <;> rfl
  | some u =>
    rw [hu] at h
    cases karmaOk with
    | false => cases h
    | true =>
      cases h
      cases tt <;> rfl

/-- A failing karma step (with the author present) aborts the transaction. -/
theorem voteTxn_karma_fail (db : DB) (tt : TType) (uid : Nat) (tgt : TargetDoc)
    (value : JSVal) (castVal : Int) (au : UserRec)
    (hau : db.users.find? (fun u => u.id == tgt.author) = some au) :
    voteTxn db tt uid tgt value castVal false = none := by
  simp [voteTxn, hau]

/-- Success shape of the vote handler on a valid numeric value, an existing
target, no injected conflict and a succeeding karma step. -/
theorem vote_num_ok (db : DB) (tt : TType) (uid tid : Nat) (n : Int) (tgt : TargetDoc)
    (hn : n = 1 ∨ n = 0 ∨ n = -1)
    (hp : (db.coll tt).find? (fun t => t.id == tid) = some tgt) :
    ∃ db2, vote db tt uid tid (JSVal.num n) true [] = ⟨Resp.ok, db2, 1⟩ ∧
      voteTxn db tt uid tgt (JSVal.num n) n true = some db2 := by
  have hval : (n == 1 || n == 0 || n == -1) = true := by
    rcases hn with h | h | h <;> subst h <;> rfl
  simp only [vote, jsNumber, hval, if_true, hp, List.headD, Bool.false_eq_true, if_false]
  cases htxn : voteTxn db tt uid tgt (JSVal.num n) n true with
  | none => exact absurd htxn (voteTxn_true_isSome db tt uid tgt (JSVal.num n) n)
  | some db2 => exact ⟨db2, rfl, rfl⟩

/-- Every execution of the vote handler either leaves the ledger unchanged or
commits exactly the transition's ledger, computed for the found target and the
validated numeric value. -/
theorem vote_votes_cases (db : DB) (tt : TType) (uid tid : Nat) (value : JSVal)
    (karmaOk : Bool) (conflicts : List Bool) :
    (vote db tt uid tid value karmaOk conflicts).db.votes = db.votes ∨
    ∃ n tgt, jsNumber value = some n ∧ (n == 1 || n == 0 || n == -1) = true ∧
      (db.coll tt).find? (fun t => t.id == tid) = some tgt ∧
      (vote db tt uid tid value karmaOk conflicts).db.votes
        = (applyVote db.votes uid tt tgt.id tgt.upvotes tgt.downvotes value n).votes := by
  simp only [vote]
  split
  next => exact Or.inl rfl
  next n hnum =>
    split
    next hval =>
      split
      next hp => exact Or.inl rfl
      next tgt hp =>
        split
        next hc => exact Or.inl rfl
        next hc =>
          split
          next db2 htxn =>
            exact Or.inr ⟨n, tgt, hnum, hval, hp,
              voteTxn_some_votes db tt uid tgt value n karmaOk db2 htxn⟩
          next htxn => exact Or.inl rfl
    next hval => exact Or.inl rfl

theorem ite_beq_eq (x y : Int) : (if x == y then y else x) = x := by
  by_cases h : x = y
  · simp [h]
  · simp [h]

/-- Saving the fetched target rewrites exactly its counters in the
collection. -/
theorem saveDoc_find?_self (coll : List TargetDoc) (tgt updated : TargetDoc)
    (hp : coll.find? (fun t => t.id == tgt.id) = some tgt) :
    (saveDoc coll tgt updated).find? (fun t => t.id == tgt.id)
      = some { tgt with upvotes := updated.upvotes, downvotes := updated.downvotes } := by
  unfold saveDoc
  have hpos := setFirst_find?_pos (fun t => t.id == tgt.id)
    (fun cur =>
      { cur with
        upvotes := if updated.upvotes == tgt.upvotes then cur.upvotes else updated.upvotes,
        downvotes := if updated.downvotes == tgt.downvotes then cur.downvotes else updated.downvotes })
    coll tgt hp (by simp)
  rw [hpos]
  simp only [ite_beq_eq]

/-- C1: for an integer requested value in {-1, 0, +1} on an existing target,
with a well-formed ledger (unique keys, stored values in {-1, +1}), the vote
handler realises exactly the spec's transition table: the key's ledger value
becomes the requested value (record absent on retraction, list untouched on
no-op), every other key is untouched, and both counters change by the table's
deltas with decrements clamped at zero. -/
theorem claim1_transition_table (db : DB) (tt : TType) (uid tid : Nat) (n : Int)
    (tgt : TargetDoc)
    (hn : n = 1 ∨ n = 0 ∨ n = -1)
    (hp : (db.coll tt).find? (fun t => t.id == tid) = some tgt)
    (hu : KeyUnique db.votes)
    (hv : ∀ v ∈ db.votes, v.value = 1 ∨ v.value = -1) :
    (vote db tt uid tid (JSVal.num n) true []).resp = Resp.ok
    ∧ lookupVote (vote db tt uid tid (JSVal.num n) true []).db uid tt tid
        = (if n = 0 then none else some n)
    ∧ (((vote db tt uid tid (JSVal.num n) true []).db.coll tt).find?
          (fun t => t.id == tid)).map TargetDoc.upvotes
        = some (applyDelta tgt.upvotes (specDeltas (getVote db.votes uid tt tid) n).1)
    ∧ (((vote db tt uid tid (JSVal.num n) true []).db.coll tt).find?
          (fun t => t.id == tid)).map TargetDoc.downvotes
        = some (applyDelta tgt.downvotes (specDeltas (getVote db.votes uid tt tid) n).2)
    ∧ (getVote db.votes uid tt tid = n →
        (vote db tt uid tid (JSVal.num n) true []).db.votes = db.votes)
    ∧ (∀ uid2 tt2 t2, ¬(uid2 = uid ∧ tt2 = tt ∧ t2 = tid) →
        lookupVote (vote db tt uid tid (JSVal.num n) true []).db uid2 tt2 t2
          = lookupVote db uid2 tt2 t2) := by
  have hid : tgt.id = tid := by simpa using List.find?_some hp
  subst hid
  obtain ⟨db2, hres, htxn⟩ := vote_num_ok db tt uid tgt.id n tgt hn hp
  have hvotes := voteTxn_some_votes db tt uid tgt (JSVal.num n) n true db2 htxn
  have hcoll := voteTxn_some_coll db tt uid tgt (JSVal.num n) n true db2 htxn
  rw [hres]
  refine ⟨rfl, ?_, ?_, ?_, ?_, ?_⟩
  · show lookupVote db2 uid tt tgt.id = _
    rw [lookupVote, hvotes]
    exact applyVote_num_lookup db.votes uid tt tgt.id tgt.upvotes tgt.downvotes n hn hu
  · show ((db2.coll tt).find? (fun t => t.id == tgt.id)).map TargetDoc.upvotes = _
    rw [hcoll, saveDoc_find?_self (db.coll tt) tgt _ hp]
    rw [Option.map_some']
    rw [applyVote_num_up db.votes uid tt tgt.id tgt.upvotes tgt.downvotes n hn hv]
  · show ((db2.coll tt).find? (fun t => t.id == tgt.id)).map TargetDoc.downvotes = _
    rw [hcoll, saveDoc_find?_self (db.coll tt) tgt _ hp]
    rw [Option.map_some']
    rw [applyVote_num_down db.votes uid tt tgt.id tgt.upvotes tgt.downvotes n hn hv]
  · intro hg
    show db2.votes = db.votes
    rw [hvotes]
    exact applyVote_num_noop db.votes uid tt tgt.id tgt.upvotes tgt.downvotes n hv hg
  · intro uid2 tt2 t2 hne
    show lookupVote db2 uid2 tt2 t2 = _
    rw [lookupVote, lookupVote, hvotes]
    rw [applyVote_frame db.votes uid tt tgt.id tgt.upvotes tgt.downvotes (JSVal.num n) n
      uid2 tt2 t2 hne]

theorem claim1_witness :
    KeyUnique c1DB.votes
    ∧ ((vote c1DB TType.post 7 1 (JSVal.num (-1)) true []).resp = Resp.ok
    ∧ lookupVote (vote c1DB TType.post 7 1 (JSVal.num (-1)) true []).db 7 TType.post 1
        = (if (-1 : Int) = 0 then none else some (-1))
    ∧ (((vote c1DB TType.post 7 1 (JSVal.num (-1)) true []).db.coll TType.post).find?
          (fun t => t.id == 1)).map TargetDoc.upvotes
        = some (applyDelta (1 : Int) (specDeltas (getVote c1DB.votes 7 TType.post 1) (-1)).1)
    ∧ (((vote c1DB TType.post 7 1 (JSVal.num (-1)) true []).db.coll TType.post).find?
          (fun t => t.id == 1)).map TargetDoc.downvotes
        = some (applyDelta (0 : Int) (specDeltas (getVote c1DB.votes 7 TType.post 1) (-1)).2)
    ∧ (getVote c1DB.votes 7 TType.post 1 = -1 →
        (vote c1DB TType.post 7 1 (JSVal.num (-1)) true []).db.votes = c1DB.votes)
    ∧ (∀ uid2 tt2 t2, ¬(uid2 = 7 ∧ tt2 = TType.post ∧ t2 = 1) →
        lookupVote (vote c1DB TType.post 7 1 (JSVal.num (-1)) true []).db uid2 tt2 t2
          = lookupVote c1DB uid2 tt2 t2)) :=
  ⟨by simp [KeyUnique, c1DB],
    claim1_transition_table c1DB TType.post 7 1 (-1) ⟨1, 9, none, 1, 0⟩
      (by norm_num) rfl (by simp [KeyUnique, c1DB]) (by decide)⟩

/-- C2: the handlers read the target document before the transaction starts
and write counters computed from that cached read.  With two distinct users
casting concurrent first-time +1 votes on the same post (both pre-transaction
reads happen before either transaction commits), both requests complete and
insert their ledger records, yet `upvotes` ends at 1, not 2: the first
increment is lost.  This refutes the required `upvotes == N` and the
in-transaction-read requirement. -/
theorem claim2_lost_update :
    runSchedule 1 c2DB [⟨7, none⟩, ⟨8, none⟩]
        [SchedStep.fetch 0, SchedStep.fetch 1, SchedStep.txn 0, SchedStep.txn 1]
      = { posts := [⟨1, 9, none, 1, 0⟩], comments := [],
          votes := [⟨7, TType.post, 1, 1⟩, ⟨8, TType.post, 1, 1⟩],
          users := [⟨9, 1⟩] }
    ∧ (runSchedule 1 c2DB [⟨7, none⟩, ⟨8, none⟩]
        [SchedStep.fetch 0, SchedStep.fetch 1, SchedStep.txn 0, SchedStep.txn 1]).votes.length = 2 := by
  exact ⟨by decide, by decide⟩

/-- The source's guarded aggregation result equals the plain sum over the
author's documents. -/
theorem karmaAgg_total (coll : List TargetDoc) (uid : Nat) :
    (if (karmaAgg coll uid).length > 0 then (karmaAgg coll uid).headD 0 else 0)
      = ((coll.filter (fun t => t.author == uid)).map (fun t => t.upvotes - t.downvotes)).sum := by
  unfold karmaAgg
  cases hl : (coll.filter (fun t => t.author == uid)).map (fun t => t.upvotes - t.downvotes) with
  | nil => simp
  | cons x xs => simp [foldl_add_eq_sum]

/-- C3: `updateKarma` returns the sum over all posts and all comments authored
by the user of `upvotes - downvotes`, writes exactly that value to the user's
`karma` field, and touches nothing else. -/
theorem claim3_update_karma (db : DB) (uid : Nat) :
    (updateKarma db uid).1 = totalKarma db uid
    ∧ (updateKarma db uid).2.posts = db.posts
    ∧ (updateKarma db uid).2.comments = db.comments
    ∧ (updateKarma db uid).2.votes = db.votes
    ∧ (∀ u, db.users.find? (fun x => x.id == uid) = some u →
        ((updateKarma db uid).2.users.find? (fun x => x.id == uid)).map UserRec.karma
          = some (totalKarma db uid)) := by
  refine ⟨?_, rfl, rfl, rfl, ?_⟩
  · show _ = totalKarma db uid
    simp only [updateKarma, karmaAgg_total, totalKarma]
  · intro u hu
    have hpos := setFirst_find?_pos (fun x => x.id == uid)
      (fun x =>
        { x with karma :=
            (if (karmaAgg db.posts uid).length > 0 then (karmaAgg db.posts uid).headD 0 else 0) +
            (if (karmaAgg db.comments uid).length > 0 then (karmaAgg db.comments uid).headD 0 else 0) })
      db.users u hu (by simpa using List.find?_some hu)
    simp only [updateKarma]
    rw [hpos, Option.map_some']
    simp only [karmaAgg_total, totalKarma]

theorem claim3_witness :
    (c3DB.users.find? (fun x => x.id == 9) = some ⟨9, 0⟩)
    ∧ ((updateKarma c3DB 9).2.users.find? (fun x => x.id == 9)).map UserRec.karma
        = some (totalKarma c3DB 9) :=
  ⟨rfl, (claim3_update_karma c3DB 9).2.2.2.2 ⟨9, 0⟩ rfl⟩

/-- C4: the compound-key uniqueness invariant of the vote ledger is
preserved by every execution of the vote handler, for every request value
(numeric or not), every target kind and every failure injection. -/
theorem claim4_uniqueness (db : DB) (tt : TType) (uid tid : Nat) (value : JSVal)
    (karmaOk : Bool) (conflicts : List Bool)
    (hu : KeyUnique db.votes) :
    KeyUnique (vote db tt uid tid value karmaOk conflicts).db.votes := by
  rcases vote_votes_cases db tt uid tid value karmaOk conflicts with h | ⟨n, tgt, _, _, _, h⟩
  · rw [h]; exact hu
  · rw [h]
    exact applyVote_keyUnique db.votes uid tt tgt.id tgt.upvotes tgt.downvotes value n hu

theorem claim4_witness :
    KeyUnique c4DB.votes
    ∧ KeyUnique (vote c4DB TType.post 8 1 (JSVal.num 1) true []).db.votes :=
  ⟨by simp [KeyUnique, c4DB],
    claim4_uniqueness c4DB TType.post 8 1 (JSVal.num 1) true [] (by simp [KeyUnique, c4DB])⟩

/-- C5 counterexample: the karma recalculation runs inside the transaction
`try` before the commit, so when it fails the catch aborts the transaction:
the handler answers 500 and the database is exactly the initial one - no
ledger record, no counter change.  The same request with a succeeding karma
step does commit the vote, so the rollback is caused by the karma failure. -/
theorem claim5_counterexample :
    vote c5DB TType.post 7 1 (JSVal.num 1) false [] = ⟨Resp.serverError, c5DB, 1⟩
    ∧ lookupVote (vote c5DB TType.post 7 1 (JSVal.num 1) false []).db 7 TType.post 1 = none
    ∧ (vote c5DB TType.post 7 1 (JSVal.num 1) true []).db.votes
        = [⟨7, TType.post, 1, 1⟩] := by
  exact ⟨by decide, by decide, by decide⟩

/-- C5 as amended: when the karma recalculation step of a vote request fails
(author present), the whole transaction is aborted - the ledger and counter
mutations are rolled back, and the request surfaces a server error, masking
the vote. -/
theorem claim5_amended (db : DB) (tt : TType) (uid tid : Nat) (n : Int)
    (tgt : TargetDoc) (au : UserRec)
    (hn : n = 1 ∨ n = 0 ∨ n = -1)
    (hp : (db.coll tt).find? (fun t => t.id == tid) = some tgt)
    (hau : db.users.find? (fun u => u.id == tgt.author) = some au) :
    vote db tt uid tid (JSVal.num n) false [] = ⟨Resp.serverError, db, 1⟩ := by
  have hval : (n == 1 || n == 0 || n == -1) = true := by
    rcases hn with h | h | h <;> subst h <;> rfl
  simp only [vote, jsNumber, hval, if_true, hp, List.headD, Bool.false_eq_true, if_false]
  rw [voteTxn_karma_fail db tt uid tgt (JSVal.num n) n au hau]

theorem claim5_witness :
    ((c5DB.coll TType.post).find? (fun t => t.id == 1) = some ⟨1, 9, none, 0, 0⟩)
    ∧ (c5DB.users.find? (fun u => u.id == (⟨1, 9, none, 0, 0⟩ : TargetDoc).author) = some ⟨9, 0⟩)
    ∧ vote c5DB TType.post 7 1 (JSVal.num 1) false [] = ⟨Resp.serverError, c5DB, 1⟩ :=
  ⟨rfl, rfl,
    claim5_amended c5DB TType.post 7 1 1 ⟨1, 9, none, 0, 0⟩ ⟨9, 0⟩ (Or.inl rfl) rfl rfl⟩

/-- C6: an integer request value outside {-1, 0, +1} (and any value coercing
to NaN) is rejected with a client error before the target is even read, and a
valid value on a missing target yields not-found; in all three cases the
database is returned unchanged and no transaction attempt is made. -/
theorem claim6_validation (db : DB) (tt : TType) (uid tid : Nat)
    (karmaOk : Bool) (conflicts : List Bool) :
    (∀ n : Int, ¬(n = 1 ∨ n = 0 ∨ n = -1) →
      vote db tt uid tid (JSVal.num n) karmaOk conflicts = ⟨Resp.badRequest, db, 0⟩)
    ∧ (∀ value : JSVal, jsNumber value = none →
      vote db tt uid tid value karmaOk conflicts = ⟨Resp.badRequest, db, 0⟩)
    ∧ (∀ (value : JSVal) (n : Int), jsNumber value = some n → (n = 1 ∨ n = 0 ∨ n = -1) →
      (db.coll tt).find? (fun t => t.id == tid) = none →
      vote db tt uid tid value karmaOk conflicts = ⟨Resp.notFound, db, 0⟩) := by
  refine ⟨?_, ?_, ?_⟩
  · intro n hn
    have hval : (n == 1 || n == 0 || n == -1) = false := by
      have h2 : ¬((n == 1 || n == 0 || n == -1) = true) := by
        simp only [Bool.or_eq_true, beq_iff_eq]
        tauto
      simpa using h2
    simp [vote, jsNumber, hval]
  · intro value hval
    simp [vote, hval]
  · intro value n hnum hval hp
    have hv : (n == 1 || n == 0 || n == -1) = true := by
      rcases hval with h | h | h <;> subst h <;> rfl
    simp [vote, hnum, hv, hp]

theorem claim6_witness :
    (¬((2 : Int) = 1 ∨ (2 : Int) = 0 ∨ (2 : Int) = -1))
    ∧ vote c6DB TType.post 7 1 (JSVal.num 2) true [] = ⟨Resp.badRequest, c6DB, 0⟩
    ∧ vote c6DB TType.post 7 99 (JSVal.num 1) true [] = ⟨Resp.notFound, c6DB, 0⟩ :=
  ⟨by norm_num,
    (claim6_validation c6DB TType.post 7 1 true []).1 2 (by norm_num),
    (claim6_validation c6DB TType.post 7 99 true []).2.2 (JSVal.num 1) 1 rfl (Or.inl rfl) rfl⟩

/-- C7 counterexample: the first transaction attempt hits a write conflict
and a second attempt would succeed, yet the handler surfaces a server error
after exactly one attempt with nothing mutated - it performs no retry at
all. -/
theorem claim7_counterexample :
    vote c7DB TType.post 7 1 (JSVal.num 1) true [true, false]
      = ⟨Resp.serverError, c7DB, 1⟩
    ∧ (vote c7DB TType.post 7 1 (JSVal.num 1) true [false]).resp = Resp.ok := by
  exact ⟨by decide, by decide⟩

/-- C7 as amended: when the transactional write of a vote request detects a
conflicting concurrent writer, the handler aborts the transaction and
surfaces a server error after that single attempt, with no ledger or counter
mutation; it never retries (and, the attempt being wholly rolled back, it
applies no transition at all, stale or otherwise). -/
theorem claim7_amended (db : DB) (tt : TType) (uid tid : Nat) (n : Int)
    (tgt : TargetDoc) (karmaOk : Bool) (rest : List Bool)
    (hn : n = 1 ∨ n = 0 ∨ n = -1)
    (hp : (db.coll tt).find? (fun t => t.id == tid) = some tgt) :
    vote db tt uid tid (JSVal.num n) karmaOk (true :: rest) = ⟨Resp.serverError, db, 1⟩ := by
  have hval : (n == 1 || n == 0 || n == -1) = true := by
    rcases hn with h | h | h <;> subst h <;> rfl
  simp [vote, jsNumber, hval, hp]

theorem claim7_witness :
    ((c7DB.coll TType.post).find? (fun t => t.id == 1) = some ⟨1, 9, none, 0, 0⟩)
    ∧ vote c7DB TType.post 7 1 (JSVal.num 1) true [true] = ⟨Resp.serverError, c7DB, 1⟩ :=
  ⟨rfl,
    claim7_amended c7DB TType.post 7 1 1 ⟨1, 9, none, 0, 0⟩ true [] (Or.inl rfl) rfl⟩

theorem setFirst_congr_id {α : Type} (p : α → Bool) (f : α → α) (l : List α)
    (h : ∀ a, f a = a) : setFirst p f l = l := by
  induction l with
  | nil => rfl
  | cons x xs ih =>
    simp only [setFirst]
    rw [h x]
    by_cases hx : p x
    · rw [if_pos hx]
    · rw [if_neg hx, ih]

/-- Saving a document with no modified path writes nothing. -/
theorem saveDoc_self (coll : List TargetDoc) (tgt : TargetDoc) :
    saveDoc coll tgt tgt = coll := by
  unfold saveDoc
  apply setFirst_congr_id
  intro a
  simp

/-- A repeat nonzero vote leaves the ledger list unchanged: the update branch
writes back the identical value. -/
theorem applyVote_repeat_votes (votes : List VoteRec) (uid : Nat) (tt : TType)
    (tid : Nat) (up down : Int) (n : Int) (v : VoteRec)
    (hf : votes.find? (voteKey uid tt tid) = some v)
    (hval : v.value = n) (hn : n = 1 ∨ n = -1) :
    (applyVote votes uid tt tid up down (JSVal.num n) n).votes = votes := by
  have hn0 : ¬ ((n == 0) : Bool) = true := by
    rcases hn with h | h <;> subst h <;> simp
  simp only [applyVote, jsEqInt, hf]
  rw [if_neg hn0]
  exact setFirst_fix _ _ _ v hf (by rw [← hval])

/-- A repeat nonzero vote leaves both counters unchanged. -/
theorem applyVote_repeat_counters (votes : List VoteRec) (uid : Nat) (tt : TType)
    (tid : Nat) (up down : Int) (n : Int) (v : VoteRec)
    (hf : votes.find? (voteKey uid tt tid) = some v)
    (hval : v.value = n) (hn : n = 1 ∨ n = -1) :
    (applyVote votes uid tt tid up down (JSVal.num n) n).upvotes = up
    ∧ (applyVote votes uid tt tid up down (JSVal.num n) n).downvotes = down := by
  simp only [applyVote, jsEqInt, hf]
  rcases hn with h | h <;> subst h <;> simp [hval]

/-- C8: submitting a vote with the same nonzero value as the voter's existing
record is a no-op - the request succeeds, the ledger list is literally
unchanged, and the whole target collection (hence both counters) is literally
unchanged. -/
theorem claim8_repeat_noop (db : DB) (tt : TType) (uid tid : Nat) (n : Int)
    (tgt : TargetDoc) (v : VoteRec)
    (hn : n = 1 ∨ n = -1)
    (hp : (db.coll tt).find? (fun t => t.id == tid) = some tgt)
    (hf : db.votes.find? (voteKey uid tt tid) = some v)
    (hval : v.value = n) :
    (vote db tt uid tid (JSVal.num n) true []).resp = Resp.ok
    ∧ (vote db tt uid tid (JSVal.num n) true []).db.votes = db.votes
    ∧ (vote db tt uid tid (JSVal.num n) true []).db.coll tt = db.coll tt := by
  have hid : tgt.id = tid := by simpa using List.find?_some hp
  subst hid
  obtain ⟨db2, hres, htxn⟩ := vote_num_ok db tt uid tgt.id n tgt
    (by rcases hn with h | h <;> subst h <;> simp) hp
  have hvotes := voteTxn_some_votes db tt uid tgt (JSVal.num n) n true db2 htxn
  have hcoll := voteTxn_some_coll db tt uid tgt (JSVal.num n) n true db2 htxn
  obtain ⟨hup, hdown⟩ := applyVote_repeat_counters db.votes uid tt tgt.id
    tgt.upvotes tgt.downvotes n v hf hval hn
  rw [hres]
  refine ⟨rfl, ?_, ?_⟩
  · show db2.votes = db.votes
    rw [hvotes]
    exact applyVote_repeat_votes db.votes uid tt tgt.id tgt.upvotes tgt.downvotes n v hf hval hn
  · show db2.coll tt = db.coll tt
    rw [hcoll, hup, hdown]
    exact saveDoc_self (db.coll tt) tgt

theorem claim8_witness :
    ((⟨7, TType.post, 1, 1⟩ : VoteRec).value = 1)
    ∧ (vote c8DB TType.post 7 1 (JSVal.num 1) true []).db.votes = c8DB.votes
    ∧ (vote c8DB TType.post 7 1 (JSVal.num 1) true []).db.coll TType.post
        = c8DB.coll TType.post :=
  ⟨rfl,
    (claim8_repeat_noop c8DB TType.post 7 1 1 ⟨1, 9, none, 1, 0⟩ ⟨7, TType.post, 1, 1⟩
      (Or.inl rfl) rfl rfl rfl).2.1,
    (claim8_repeat_noop c8DB TType.post 7 1 1 ⟨1, 9, none, 1, 0⟩ ⟨7, TType.post, 1, 1⟩
      (Or.inl rfl) rfl rfl rfl).2.2⟩

/-- C9, amended part: for number-typed request values, every vote handler
execution preserves the invariant that stored ledger records carry value
`+1` or `-1`. -/
theorem claim9_amended (db : DB) (tt : TType) (uid tid : Nat) (m : Int)
    (karmaOk : Bool) (conflicts : List Bool)
    (hv : ∀ v ∈ db.votes, v.value = 1 ∨ v.value = -1) :
    ∀ v ∈ (vote db tt uid tid (JSVal.num m) karmaOk conflicts).db.votes,
      v.value = 1 ∨ v.value = -1 := by
  rcases vote_votes_cases db tt uid tid (JSVal.num m) karmaOk conflicts with
    h | ⟨n, tgt, hnum, hval, hp, h⟩
  · rw [h]; exact hv
  · have hm : n = m := by
      have : some m = some n := by simpa [jsNumber] using hnum
      exact (Option.some.inj this).symm
    subst hm
    rw [h]
    have hn : n = 1 ∨ n = 0 ∨ n = -1 := by
      have h2 : (n = 1 ∨ n = 0) ∨ n = -1 := by
        simpa [Bool.or_eq_true, beq_iff_eq] using hval
      tauto
    exact applyVote_num_values db.votes uid tt tgt.id tgt.upvotes tgt.downvotes n hn hv

/-- C9 counterexample: the request body value `"0"` (a string) passes the
validation (`Number("0") = 0` is in `[1, 0, -1]`) but fails the strict
comparison `value === 0`, so the handler takes the create branch and stores a
`VoteRecord` with value `0` - which the schema's enum `[-1, 0, 1]` admits.
The request is accepted (HTTP 200). -/
theorem claim9_counterexample :
    (vote c9DB TType.post 7 1 (JSVal.str "0") true []).resp = Resp.ok
    ∧ (vote c9DB TType.post 7 1 (JSVal.str "0") true []).db.votes
        = [⟨7, TType.post, 1, 0⟩] := by
  exact ⟨by decide, by decide⟩

theorem claim9_witness :
    (∀ v ∈ c9DB.votes, v.value = 1 ∨ v.value = -1)
    ∧ (∀ v ∈ (vote c9DB TType.post 7 1 (JSVal.num 1) true []).db.votes,
        v.value = 1 ∨ v.value = -1) :=
  ⟨by decide, claim9_amended c9DB TType.post 7 1 1 true [] (by decide)⟩

/-- C10: deleting a post (by its author) removes the post's own vote records
and all comments of the post, but preserves every comment-targeted vote
record - including those whose target comment was just deleted - while
deleting a comment through the comment route does remove that comment's vote
records. -/
theorem claim10_orphan_votes (db : DB) (requester pid : Nat) (post : TargetDoc)
    (hp : db.posts.find? (fun t => t.id == pid) = some post)
    (hauth : post.author = requester) :
    (deletePost db requester pid).1 = Resp.ok
    ∧ (∀ v ∈ (deletePost db requester pid).2.votes,
        ¬(v.targetType = TType.post ∧ v.target = pid))
    ∧ (∀ c ∈ (deletePost db requester pid).2.comments, c.post ≠ some pid)
    ∧ (∀ v ∈ db.votes, v.targetType = TType.comment →
        v ∈ (deletePost db requester pid).2.votes)
    ∧ (∀ (db2 : DB) (requester2 cid : Nat) (comment : TargetDoc),
        db2.comments.find? (fun c => c.id == cid) = some comment →
        comment.author = requester2 →
        ∀ v ∈ (deleteComment db2 requester2 cid).2.votes,
          ¬(v.targetType = TType.comment ∧ v.target = cid)) := by
  have hne : (post.author != requester) = false := by simp [hauth]
  simp only [deletePost, hp, hne, Bool.false_eq_true, if_false]
  refine ⟨?_, ?_, ?_, ?_, ?_⟩
  · trivial
  · rintro v hv ⟨h1, h2⟩
    have hmem := (List.mem_filter.mp hv).2
    simp [h1, h2] at hmem
  · intro c hc
    have hmem := (List.mem_filter.mp hc).2
    simpa using hmem
  · intro v hv hvt
    refine List.mem_filter.mpr ⟨hv, ?_⟩
    simp [hvt]
  · rintro db2 requester2 cid comment hc hauth2 v hv ⟨h1, h2⟩
    have hne2 : (comment.author != requester2) = false := by simp [hauth2]
    simp only [deleteComment, hc, hne2, Bool.false_eq_true, if_false] at hv
    have hmem := (List.mem_filter.mp hv).2
    simp [h1, h2] at hmem

theorem claim10_witness :
    (c10DB.posts.find? (fun t => t.id == 1) = some ⟨1, 9, none, 1, 0⟩)
    ∧ (∀ v ∈ (deletePost c10DB 9 1).2.votes, ¬(v.targetType = TType.post ∧ v.target = 1))
    ∧ (⟨7, TType.comment, 5, 1⟩ : VoteRec) ∈ (deletePost c10DB 9 1).2.votes
    ∧ (∀ c ∈ (deletePost c10DB 9 1).2.comments, c.post ≠ some 1) := by
  have h := claim10_orphan_votes c10DB 9 1 ⟨1, 9, none, 1, 0⟩ rfl rfl
  exact ⟨rfl, h.2.1, h.2.2.2.1 ⟨7, TType.comment, 5, 1⟩ (by decide) rfl, h.2.2.1⟩
